import Mathlib

/-!
Verification development for the forge-core git synchronization and
execution lifecycle services. Each section shallowly embeds one Rust
function from the repository (file and line references in the doc
comments) and proves the behavioural properties claimed of it.
-/

set_option maxHeartbeats 1000000

namespace ForgeCore

/-! ## Git synchronization engine
Embeds `crates/services/src/services/git_remote.rs`. -/

/-- Pull strategies, from `enum PullStrategy` (git_remote.rs:311). -/
inductive PullStrategy where
  | merge
  | rebase
  | fastForward
deriving DecidableEq, Repr

/-- Result of a successful pull, from `struct PullResult` (git_remote.rs:318). -/
structure PullResult where
  success : Bool
  strategy_used : PullStrategy
  commits_pulled : Nat
  message : String
deriving DecidableEq, Repr

/-- Error cases surfaced by the git remote service, from `GitServiceError`
variants used in git_remote.rs (`InvalidRepository`, `BranchesDiverged`,
`BranchNotFound`) plus the clean-worktree check failure. -/
inductive GitRemoteError where
  | invalidRepository (msg : String)
  | branchesDiverged (msg : String)
  | branchNotFound (msg : String)
  | worktreeNotClean
deriving DecidableEq, Repr

/-- External git commands issued by `pull_branch`, recorded as a trace so
that "no merge or rebase is executed" is a statement about the output. -/
inductive GitCmd where
  | fetchBranch (branch : String)
  | mergeFfOnlyUpstream
  | rebaseUpstream
deriving DecidableEq, Repr

/-- The repository state `pull_branch` observes: worktree cleanliness, the
checked-out branch, whether the requested branch has an upstream, and the
ahead/behind counts `graph_ahead_behind` reports after the fetch. -/
structure PullRepoState where
  clean : Bool
  currentBranch : String
  hasUpstream : Bool
  ahead : Nat
  behind : Nat
deriving DecidableEq, Repr

/-- Shallow embedding of `GitRemoteService::pull_branch`
(git_remote.rs:151-242). Returns the call's result together with the trace
of git commands executed. Control flow follows the source exactly:
clean-worktree check, current-branch check, fetch, upstream resolution,
ahead/behind, the `behind == 0` no-op short-circuit, the `ahead > 0`
divergence error, then the strategy-selected fast-forward merge or rebase. -/
def pull_branch (st : PullRepoState) (branch_name : String)
    (strategy : PullStrategy) : Except GitRemoteError PullResult × List GitCmd :=
  if st.clean = false then
    (.error .worktreeNotClean, [])
  else if st.currentBranch ≠ branch_name then
    (.error (.invalidRepository
      ("Cannot pull " ++ branch_name ++ ": currently on " ++ st.currentBranch)), [])
  else
    let fetched : List GitCmd := [.fetchBranch branch_name]
    if st.hasUpstream = false then
      (.error (.branchNotFound (branch_name ++ " has no upstream")), fetched)
    else if st.behind = 0 then
      (.ok { success := true, strategy_used := strategy, commits_pulled := 0,
             message := "Already up-to-date" }, fetched)
    else if 0 < st.ahead then
      (.error (.branchesDiverged
        ("Branch has diverged: manual merge required.")), fetched)
    else
      match strategy with
      | .merge | .fastForward =>
          (.ok { success := true, strategy_used := strategy,
                 commits_pulled := st.behind,
                 message := "Successfully pulled commits" },
           fetched ++ [.mergeFfOnlyUpstream])
      | .rebase =>
          (.ok { success := true, strategy_used := strategy,
                 commits_pulled := st.behind,
                 message := "Successfully pulled commits" },
           fetched ++ [.rebaseUpstream])

/-- Per-branch sync status, from `struct BranchSyncStatus` (git_remote.rs:297). -/
structure BranchSyncStatus where
  branch_name : String
  local_sha : String
  remote_sha : Option String
  ahead_count : Nat
  behind_count : Nat
  is_diverged : Bool
  is_up_to_date : Bool
  needs_pull : Bool
  needs_push : Bool
deriving DecidableEq, Repr

/-- Project-wide sync status, from `struct ProjectSyncStatus`
(git_remote.rs:290); the unused timestamp is dropped (always `None`). -/
structure ProjectSyncStatus where
  current_branch : String
  branches : List BranchSyncStatus
deriving DecidableEq, Repr

/-- A local branch as `get_sync_status` sees it: name, tip oid, and, when an
upstream is configured, the upstream tip oid. -/
structure LocalBranch where
  name : String
  localOid : String
  upstreamOid : Option String
deriving DecidableEq, Repr

/-- The repository state `get_sync_status` observes: current branch, local
branches, and the `graph_ahead_behind` oracle on pairs of tips. -/
structure SyncRepoState where
  currentBranch : String
  branches : List LocalBranch
  graphAheadBehind : String → String → Nat × Nat

/-- Shallow embedding of `GitRemoteService::get_sync_status`
(git_remote.rs:75-148): every local branch with an upstream contributes one
`BranchSyncStatus` whose flags are computed exactly as in the source
(`is_diverged := ahead > 0 && behind > 0`, `is_up_to_date := ahead == 0 &&
behind == 0`, `needs_pull := behind > 0`, `needs_push := ahead > 0 &&
behind == 0`). -/
def get_sync_status (repo : SyncRepoState) : ProjectSyncStatus :=
  { current_branch := repo.currentBranch,
    branches := repo.branches.filterMap fun b =>
      b.upstreamOid.map fun remote =>
        let ab := repo.graphAheadBehind b.localOid remote
        { branch_name := b.name,
          local_sha := b.localOid,
          remote_sha := some remote,
          ahead_count := ab.1,
          behind_count := ab.2,
          is_diverged := decide (0 < ab.1) && decide (0 < ab.2),
          is_up_to_date := decide (ab.1 = 0) && decide (ab.2 = 0),
          needs_pull := decide (0 < ab.2),
          needs_push := decide (0 < ab.1) && decide (ab.2 = 0) } }

/-! ## Task store and task deletion
Embeds `crates/server/src/routes/tasks.rs` (`delete_task`) over an explicit
store state. -/

/-- Modelled from the spec: task status values, §3 Data Model ("status ∈
{todo, in-progress, in-review, done, cancelled, archived, agent}"); the
`TaskStatus` enum itself lives in the db crate outside the provided
sources. -/
inductive TaskStatus where
  | todo
  | inProgress
  | inReview
  | done
  | cancelled
  | archived
  | agent
deriving DecidableEq, Repr

/-- A task row: id, project id, status, and the optional parent-attempt
back-reference (`parent_task_attempt`). -/
structure TaskRow where
  id : Nat
  project_id : Nat
  status : TaskStatus
  parent_task_attempt : Option Nat
deriving DecidableEq, Repr

/-- A task-attempt row: id, owning task, executor string, branches, and the
optional worktree container reference. -/
structure AttemptRow where
  id : Nat
  task_id : Nat
  executor : String
  base_branch : String
  branch : String
  container_ref : Option String
deriving DecidableEq, Repr

/-- A project row (only the fields `delete_task` touches). -/
structure ProjectRow where
  id : Nat
  git_repo_path : String
deriving DecidableEq, Repr

/-- The persistent store state visible to the task routes; `agents` is the
`forge_agents` membership table (task ids registered as agent tasks). -/
structure Store where
  projects : List ProjectRow
  tasks : List TaskRow
  attempts : List AttemptRow
  agents : List Nat
deriving DecidableEq, Repr

/-- Data gathered for background worktree cleanup, from
`WorktreeCleanupData` (container service interface). -/
structure WorktreeCleanupData where
  attempt_id : Nat
  worktree_path : String
  git_repo_path : Option String
deriving DecidableEq, Repr

/-- API error cases used by the task routes (`ApiError` variants reached in
tasks.rs). -/
inductive ApiError where
  | conflict (msg : String)
  | rowNotFound
deriving DecidableEq, Repr

/-- Store operations issued inside the deletion transaction, recorded as a
trace so the transaction structure is part of the output. -/
inductive StoreOp where
  | txBegin
  | nullifyChildren (attemptId : Nat)
  | deleteTaskRow (taskId : Nat)
  | txCommit
deriving DecidableEq, Repr

/-- Modelled from the spec: `Task::nullify_children_by_attempt_id` (§3 /
§4.1: "null out child tasks' parent-attempt references"); the query itself
lives in the db crate outside the provided sources. Sets
`parent_task_attempt` to null on every task referencing the attempt. -/
def nullify_children_by_attempt_id (ts : List TaskRow) (attemptId : Nat) :
    List TaskRow :=
  ts.map fun t =>
    if t.parent_task_attempt = some attemptId then
      { t with parent_task_attempt := none }
    else t

/-- Outcome of a `delete_task` call: the handler result, the store after
the call, the transaction's operation trace, and the worktree cleanups
handed to the background task. -/
structure DeleteOutcome where
  result : Except ApiError Unit
  store : Store
  txOps : List StoreOp
  scheduledCleanups : List WorktreeCleanupData
deriving Repr

/-- Shallow embedding of the `delete_task` route handler
(tasks.rs:645-751). `hasRunning` is the container service's
`has_running_processes` answer for the task. Control flow follows the
source: reject on running processes; fetch the task's attempts; resolve
the parent project; gather cleanup data; then in one transaction nullify
children of each attempt and delete the task row (the store cascades
attempt deletion); on zero rows affected the transaction is dropped
without commit; finally schedule background worktree cleanup. -/
def delete_task (st : Store) (hasRunning : Bool) (task : TaskRow) :
    DeleteOutcome :=
  if hasRunning then
    { result := .error (.conflict "Task has running execution processes"),
      store := st, txOps := [], scheduledCleanups := [] }
  else
    let attempts := st.attempts.filter fun a => a.task_id = task.id
    match st.projects.find? (fun p => p.id = task.project_id) with
    | none =>
        { result := .error .rowNotFound, store := st, txOps := [],
          scheduledCleanups := [] }
    | some project =>
        let cleanup_data := attempts.filterMap fun a =>
          a.container_ref.map fun w =>
            { attempt_id := a.id, worktree_path := w,
              git_repo_path := some project.git_repo_path }
        let attemptIds := attempts.map fun a => a.id
        let nulled := attemptIds.foldl nullify_children_by_attempt_id st.tasks
        let rows_affected := (st.tasks.filter fun t => t.id = task.id).length
        if rows_affected = 0 then
          { result := .error .rowNotFound, store := st,
            txOps := [.txBegin] ++ attemptIds.map .nullifyChildren
                      ++ [.deleteTaskRow task.id],
            scheduledCleanups := [] }
        else
          { result := .ok (),
            store := { st with
              tasks := nulled.filter fun t => ¬ t.id = task.id,
              attempts := st.attempts.filter fun a => ¬ a.task_id = task.id },
            txOps := [.txBegin] ++ attemptIds.map .nullifyChildren
                      ++ [.deleteTaskRow task.id, .txCommit],
            scheduledCleanups := cleanup_data }

/-! ## Task creation with start
Embeds `create_task_and_start` (tasks.rs:453-601). -/

/-- Request payload for `create_task_and_start`, from
`CreateAndStartTaskRequest` (tasks.rs:445): the task fields are flattened
to the ones the handler reads. -/
structure CreateAndStartTaskRequest where
  project_id : Nat
  title : String
  has_image_ids : Bool
  executor : String
  variant : Option String
  base_branch : String
  use_worktree : Option Bool
deriving DecidableEq, Repr

/-- Store and container operations issued by `create_task_and_start`,
recorded in order as a trace. `updateTaskStatus` is in the vocabulary so
that "the task is never created in one status and patched to another" is a
statement about the trace. -/
inductive CreateStartOp where
  | createTaskWithStatus (taskId : Nat) (status : TaskStatus)
  | updateTaskStatus (taskId : Nat) (status : TaskStatus)
  | associateImages (taskId : Nat)
  | insertForgeAgent (taskId : Nat)
  | createAttempt (attemptId taskId : Nat)
  | updateAttemptExecutor (attemptId : Nat) (executor : String)
  | insertWorktreeConfig (attemptId : Nat) (useWorktree : Bool)
  | containerStartAttempt (attemptId : Nat)
deriving DecidableEq, Repr

/-- Response shape, from `TaskWithAttemptStatus` as assembled at
tasks.rs:593-600. -/
structure TaskWithAttemptStatus where
  task : TaskRow
  has_in_progress_attempt : Bool
  has_merged_attempt : Bool
  last_attempt_failed : Bool
  executor : String
  attempt_count : Nat
deriving DecidableEq, Repr

/-- Outcome of a `create_task_and_start` call. -/
structure CreateStartOutcome where
  result : Except ApiError TaskWithAttemptStatus
  store : Store
  ops : List CreateStartOp
deriving Repr

/-- Shallow embedding of the `create_task_and_start` route handler
(tasks.rs:453-601). `taskId`, `attemptId` are the freshly generated ids,
`branchName` the container service's `git_branch_from_task_attempt`
answer, and `startOk` whether the container's `start_attempt` returned Ok.
Control flow follows the source: pick the initial status up front from
`use_worktree` (default true); create the task with that status; associate
images; register in `forge_agents` when not worktree-isolated; resolve the
parent project (404 when missing); create the attempt; store
executor:variant when a variant is given; persist the worktree config only
when `use_worktree` was explicitly present; call `start_attempt` and keep
only whether it succeeded; reload the task and answer with
`has_in_progress_attempt` equal to that success flag. -/
def create_task_and_start (st : Store) (p : CreateAndStartTaskRequest)
    (taskId attemptId : Nat) (branchName : String) (startOk : Bool) :
    CreateStartOutcome :=
  let use_worktree := p.use_worktree.getD true
  let initial_status := if use_worktree then TaskStatus.todo else TaskStatus.agent
  let task : TaskRow :=
    { id := taskId, project_id := p.project_id, status := initial_status,
      parent_task_attempt := none }
  let st1 : Store := { st with tasks := st.tasks ++ [task] }
  let ops1 : List CreateStartOp := [.createTaskWithStatus taskId initial_status]
  let ops2 := ops1 ++ (if p.has_image_ids then [.associateImages taskId] else [])
  let stOps3 : Store × List CreateStartOp :=
    if use_worktree then (st1, ops2)
    else ({ st1 with agents := st1.agents ++ [taskId] },
          ops2 ++ [.insertForgeAgent taskId])
  let st2 := stOps3.1
  let ops3 := stOps3.2
  match st2.projects.find? (fun pr => pr.id = p.project_id) with
  | none => { result := .error .rowNotFound, store := st2, ops := ops3 }
  | some _ =>
      let attempt : AttemptRow :=
        { id := attemptId, task_id := taskId, executor := p.executor,
          base_branch := p.base_branch, branch := branchName,
          container_ref := none }
      let st3 : Store := { st2 with attempts := st2.attempts ++ [attempt] }
      let ops4 := ops3 ++ [.createAttempt attemptId taskId]
      let step5 : AttemptRow × Store × List CreateStartOp :=
        match p.variant with
        | some v =>
            let ex := p.executor ++ ":" ++ v
            ({ attempt with executor := ex },
             { st3 with attempts := st3.attempts.map fun a =>
                 if a.id = attemptId then { a with executor := ex } else a },
             ops4 ++ [.updateAttemptExecutor attemptId ex])
        | none => (attempt, st3, ops4)
      let task_attempt := step5.1
      let st4 := step5.2.1
      let ops5 := step5.2.2
      let ops6 := ops5 ++
        (match p.use_worktree with
         | some b => [.insertWorktreeConfig attemptId b]
         | none => [])
      let ops7 := ops6 ++ [.containerStartAttempt attemptId]
      { result :=
          match st4.tasks.find? (fun t => t.id = taskId) with
          | none => .error .rowNotFound
          | some tk =>
              .ok { task := tk, has_in_progress_attempt := startOk,
                    has_merged_attempt := false, last_attempt_failed := false,
                    executor := task_attempt.executor, attempt_count := 1 },
        store := st4, ops := ops7 }

/-! ## Follow-up / session continuation
Embeds `follow_up` (execution_runs.rs:150-202). -/

/-- Executor profile id, from `ExecutorProfileId` in the executors crate:
an executor name and an optional variant. -/
structure ExecutorProfileId where
  executor : String
  variant : Option String
deriving DecidableEq, Repr

/-- Executor action variants built by `follow_up`, from
`ExecutorActionType` (`CodingAgentFollowUpRequest` /
`CodingAgentInitialRequest`). -/
inductive ExecutorActionType where
  | codingAgentFollowUpRequest (prompt : String) (session_id : String)
      (executor_profile_id : ExecutorProfileId)
  | codingAgentInitialRequest (prompt : String)
      (executor_profile_id : ExecutorProfileId)
deriving DecidableEq, Repr

/-- Shallow embedding of the `follow_up` route handler
(execution_runs.rs:150-202). `latest_session_id` is the store's
`find_latest_session_id_by_execution_run` answer and `latest_profile` its
`latest_executor_profile_for_run` answer (the profile re-read from the
run's most recent process record); both are point queries of the
persistent-store interface (spec §6). The executor is taken from
`latest_profile`, the variant is the caller's override when provided,
otherwise the latest profile's; a follow-up action is built when a session
id exists, a fresh initial action otherwise. -/
def follow_up (latest_session_id : Option String)
    (latest_profile : ExecutorProfileId) (prompt : String)
    (variant_override : Option String) : ExecutorActionType :=
  let executor_profile_id : ExecutorProfileId :=
    { executor := latest_profile.executor,
      variant := variant_override.or latest_profile.variant }
  match latest_session_id with
  | some session_id =>
      .codingAgentFollowUpRequest prompt session_id executor_profile_id
  | none =>
      .codingAgentInitialRequest prompt executor_profile_id

/-! ## Kanban stream filtering
Embeds `is_agent_task` (tasks.rs:374-402) and the patch filter inside
`handle_kanban_tasks_ws` (tasks.rs:246-346). -/

/-- The task fields the stream filter reads out of a patch value. -/
structure TaskMsg where
  id : Nat
  status : TaskStatus
deriving DecidableEq, Repr

/-- A patch operation on the kanban task stream: add/replace/remove on a
`/tasks/<id>` path, or the initial full-snapshot replace of `/tasks`
(a keyed map of tasks). -/
inductive TaskPatch where
  | add (t : TaskMsg)
  | replaceOp (t : TaskMsg)
  | remove (task_id : Nat)
  | snapshot (tasks : List (String × TaskMsg))
deriving DecidableEq, Repr

/-- Shallow embedding of `is_agent_task` (tasks.rs:374-402): consult the
hidden-set cache first; on a miss fall back to the `forge_agents` point
lookup `db`, and insert into the cache when the task is confirmed hidden.
Returns the verdict and the updated cache. -/
def is_agent_task (cache : List Nat) (db : Nat → Bool) (task_id : Nat) :
    Bool × List Nat :=
  if cache.contains task_id then (true, cache)
  else if db task_id then (true, task_id :: cache)
  else (false, cache)

/-- The snapshot loop of `handle_kanban_tasks_ws` (tasks.rs:301-327):
walk the keyed task map in order, keep exactly the entries that are
neither agent (cache-or-db) nor carry status `agent`, threading the cache
through the `is_agent_task` calls. -/
def filterSnapshotTasks (cache : List Nat) (db : Nat → Bool) :
    List (String × TaskMsg) → List (String × TaskMsg) × List Nat
  | [] => ([], cache)
  | (k, t) :: rest =>
      let step := is_agent_task cache db t.id
      let hidden := step.1 || (t.status == TaskStatus.agent)
      let restResult := filterSnapshotTasks step.2 db rest
      (if hidden then restResult.1 else (k, t) :: restResult.1, restResult.2)

/-- Shallow embedding of the per-patch filter in `handle_kanban_tasks_ws`
(tasks.rs:255-339): add/replace patches are dropped when the task is in
the hidden set, confirmed hidden by the fallback lookup, or carries status
`agent`; remove patches always pass; the initial snapshot is filtered
key-by-key. Returns the forwarded patch (if any) and the updated cache. -/
def filter_patch (cache : List Nat) (db : Nat → Bool) :
    TaskPatch → Option TaskPatch × List Nat
  | .add t =>
      let step := is_agent_task cache db t.id
      if step.1 || (t.status == TaskStatus.agent) then (none, step.2)
      else (some (.add t), step.2)
  | .replaceOp t =>
      let step := is_agent_task cache db t.id
      if step.1 || (t.status == TaskStatus.agent) then (none, step.2)
      else (some (.replaceOp t), step.2)
  | .remove i => (some (.remove i), cache)
  | .snapshot ts =>
      let result := filterSnapshotTasks cache db ts
      (some (.snapshot result.1), result.2)

/-! ## Execution run creation
Embeds `create_execution_run` (execution_runs.rs:86-147) together with
`ExecutionRun::create` (crates/db/src/models/execution_run.rs:166-198). -/

/-- An execution-run row, from `struct ExecutionRun`
(execution_run.rs:27-38); the run id is kept in its hexadecimal string
form. -/
structure ExecutionRunRow where
  id : String
  project_id : Nat
  branch : String
  target_branch : String
  executor : String
  container_ref : Option String
  prompt : String
  worktree_deleted : Bool
deriving DecidableEq, Repr

/-- Request payload, from `CreateExecutionRunRequest`
(execution_runs.rs:38-44). -/
structure CreateExecutionRunRequest where
  project_id : Nat
  prompt : String
  executor : String
  variant : Option String
  base_branch : Option String
deriving DecidableEq, Repr

/-- Shallow embedding of the `create_execution_run` route handler
(execution_runs.rs:86-147). `runIdStr` is the freshly generated run id's
hexadecimal string form (`run_id.to_string()`). The handler validates the
project, defaults the base branch to "main", derives the branch name as
`run/` plus the first 8 characters of the run id string, and inserts the
row with `target_branch` set to the base branch
(execution_run.rs:175-195). The subsequent container `start_run` and
reload only ever change `container_ref`, so the returned row is the
inserted one. -/
def create_execution_run (runIdStr : String) (projectExists : Bool)
    (payload : CreateExecutionRunRequest) : Except ApiError ExecutionRunRow :=
  if projectExists = false then .error .rowNotFound
  else
    let base_branch := payload.base_branch.getD "main"
    let branch_name := "run/" ++ runIdStr.take 8
    .ok { id := runIdStr, project_id := payload.project_id,
          branch := branch_name, target_branch := base_branch,
          executor := payload.executor, container_ref := none,
          prompt := payload.prompt, worktree_deleted := false }

/-! ## Concrete fixtures for witnesses -/

/-- Fixture store: one project, a task (id 10) with two attempts (one with
a worktree), and a child task (id 11) whose parent-attempt reference
points at attempt 100. -/
def sampleStore : Store :=
  { projects := [{ id := 1, git_repo_path := "/repo" }],
    tasks := [{ id := 10, project_id := 1, status := .todo,
                parent_task_attempt := none },
              { id := 11, project_id := 1, status := .todo,
                parent_task_attempt := some 100 }],
    attempts := [{ id := 100, task_id := 10, executor := "CLAUDE_CODE",
                   base_branch := "main", branch := "forge/a",
                   container_ref := some "/wt/a" },
                 { id := 101, task_id := 10, executor := "CLAUDE_CODE",
                   base_branch := "main", branch := "forge/b",
                   container_ref := none }],
    agents := [] }

/-- Fixture task row: the task with two attempts in `sampleStore`. -/
def sampleTask : TaskRow :=
  { id := 10, project_id := 1, status := .todo, parent_task_attempt := none }

/-! ## Theorems -/

/-- Every member of `nullify_children_by_attempt_id ts aid` comes from a
member of `ts`, nulled when it referenced the attempt. -/
theorem mem_nullify_children {ts : List TaskRow} {aid : Nat} {t : TaskRow}
    (h : t ∈ nullify_children_by_attempt_id ts aid) :
    ∃ u ∈ ts, t = if u.parent_task_attempt = some aid then
        { u with parent_task_attempt := none } else u := by
  simp only [nullify_children_by_attempt_id, List.mem_map] at h
  obtain ⟨u, hu, ht⟩ := h
  exact ⟨u, hu, ht.symm⟩

/-- After nullifying children of an attempt, no task references it. -/
theorem nullify_children_clears {ts : List TaskRow} {aid : Nat} :
    ∀ t ∈ nullify_children_by_attempt_id ts aid,
      t.parent_task_attempt ≠ some aid := by
  intro t ht
  obtain ⟨u, _, rfl⟩ := mem_nullify_children ht
  by_cases h : u.parent_task_attempt = some aid
  · simp [h]
  · simp [h]

/-- Nullifying children of one attempt never introduces a reference to
another. -/
theorem nullify_children_preserves {ts : List TaskRow} {aid b : Nat}
    (h : ∀ u ∈ ts, u.parent_task_attempt ≠ some b) :
    ∀ t ∈ nullify_children_by_attempt_id ts aid,
      t.parent_task_attempt ≠ some b := by
  intro t ht
  obtain ⟨u, hu, rfl⟩ := mem_nullify_children ht
  by_cases hc : u.parent_task_attempt = some aid
  · simp [hc]
  · simpa [hc] using h u hu

/-- Folding nullification over a list of attempt ids preserves the absence
of references to any fixed attempt. -/
theorem foldl_nullify_preserves (L : List Nat) :
    ∀ (ts : List TaskRow) (b : Nat),
      (∀ u ∈ ts, u.parent_task_attempt ≠ some b) →
      ∀ t ∈ L.foldl nullify_children_by_attempt_id ts,
        t.parent_task_attempt ≠ some b := by
  induction L with
  | nil => intro ts b h t ht; exact h t ht
  | cons a L ih =>
      intro ts b h t ht
      simp only [List.foldl_cons] at ht
      exact ih _ b (nullify_children_preserves h) t ht

/-- Folding nullification over a list of attempt ids acts pointwise: each
task keeps its fields, with the parent-attempt reference nulled exactly
when it pointed into the list. -/
theorem foldl_nullify_eq_map (L : List Nat) :
    ∀ ts : List TaskRow, L.foldl nullify_children_by_attempt_id ts =
      ts.map fun t =>
        match t.parent_task_attempt with
        | some aid =>
            if L.contains aid then { t with parent_task_attempt := none } else t
        | none => t := by
  induction L with
  | nil =>
      intro ts
      simp only [List.foldl_nil]
      calc ts = ts.map id := (List.map_id ts).symm
        _ = _ := List.map_congr_left (by
              intro t _
              cases hp : t.parent_task_attempt <;> simp [hp])
  | cons a L ih =>
      intro ts
      simp only [List.foldl_cons]
      rw [ih (nullify_children_by_attempt_id ts a)]
      unfold nullify_children_by_attempt_id
      rw [List.map_map]
      apply List.map_congr_left
      intro t _
      simp only [Function.comp]
      by_cases hp : t.parent_task_attempt = some a
      · simp [hp, List.contains_cons]
      · simp only [if_neg hp]
        cases hp2 : t.parent_task_attempt with
        | none => simp [hp2]
        | some b =>
            have hbn : ¬ b = a := by
              intro hball
              exact hp (hp2.trans (by rw [hball]))
            have hba : (b == a) = false := by simpa using hbn
            simp [hp2, List.contains_cons, hba, hbn]

/-- Each task survives the nullification fold, with its reference nulled
exactly when it pointed at one of the listed attempts. -/
theorem map_nullify_mem (L : List Nat) (ts : List TaskRow) (u : TaskRow)
    (hu : u ∈ ts) :
    (match u.parent_task_attempt with
     | some aid =>
         if L.contains aid then { u with parent_task_attempt := none } else u
     | none => u) ∈ L.foldl nullify_children_by_attempt_id ts := by
  rw [foldl_nullify_eq_map]
  exact List.mem_map_of_mem _ hu

/-- After folding nullification over a list of attempt ids, no task
references any of them. -/
theorem foldl_nullify_clears (L : List Nat) :
    ∀ (ts : List TaskRow) (t : TaskRow),
      t ∈ L.foldl nullify_children_by_attempt_id ts →
      ∀ aid ∈ L, t.parent_task_attempt ≠ some aid := by
  induction L with
  | nil => intro ts t ht aid ha; simp at ha
  | cons a L ih =>
      intro ts t ht aid ha
      simp only [List.foldl_cons] at ht
      rcases List.mem_cons.mp ha with rfl | ha'
      · exact foldl_nullify_preserves L _ aid nullify_children_clears t ht
      · exact ih _ t ht aid ha'

/-- C4: a `delete_task` call on a task with running processes returns a
conflict error with the store unchanged, an empty transaction trace (no
rows nulled or deleted), and no scheduled worktree cleanup. -/
theorem delete_task_running_rejected (st : Store) (task : TaskRow) :
    delete_task st true task =
      { result := .error (.conflict "Task has running execution processes"),
        store := st, txOps := [], scheduledCleanups := [] } := rfl

/-- C3: whenever `delete_task` succeeds, the resulting store has no task
referencing any attempt of the deleted task; every other task survives,
with its parent-attempt reference nulled when it pointed at one of those
attempts and untouched otherwise; the task row is gone; its attempt rows
are gone (cascade); and the transaction trace is exactly one begin, the
child nullifications for each attempt, the task deletion, and one commit
— both effects inside the single transaction. -/
theorem delete_task_success_atomic (st : Store) (hasRunning : Bool)
    (task : TaskRow)
    (hok : (delete_task st hasRunning task).result = .ok ()) :
    (∀ t ∈ (delete_task st hasRunning task).store.tasks,
        ∀ a ∈ st.attempts, a.task_id = task.id →
          t.parent_task_attempt ≠ some a.id) ∧
    (∀ u ∈ st.tasks, u.id ≠ task.id →
        (match u.parent_task_attempt with
         | some aid =>
             if ((st.attempts.filter fun a => a.task_id = task.id).map
                  fun a => a.id).contains aid then
               { u with parent_task_attempt := none } ∈
                 (delete_task st hasRunning task).store.tasks
             else u ∈ (delete_task st hasRunning task).store.tasks
         | none => u ∈ (delete_task st hasRunning task).store.tasks)) ∧
    (∀ t ∈ (delete_task st hasRunning task).store.tasks, t.id ≠ task.id) ∧
    (∀ a ∈ (delete_task st hasRunning task).store.attempts,
        a.task_id ≠ task.id) ∧
    (delete_task st hasRunning task).txOps =
      [.txBegin] ++ ((st.attempts.filter fun a => a.task_id = task.id).map
          fun a => .nullifyChildren a.id) ++ [.deleteTaskRow task.id, .txCommit] := by
  cases hasRunning with
  | true => simp [delete_task] at hok
  | false =>
      rcases hfind : st.projects.find? (fun p => p.id = task.project_id) with _ | project
      · simp [delete_task, hfind] at hok
      · by_cases hrows : (st.tasks.filter fun t => t.id = task.id).length = 0
        · simp [delete_task, hfind, hrows] at hok
        · have htasks : (delete_task st false task).store.tasks =
              (((st.attempts.filter fun a => a.task_id = task.id).map fun a => a.id).foldl
                nullify_children_by_attempt_id st.tasks).filter fun t => ¬ t.id = task.id := by
            simp [delete_task, hfind, hrows]
          have hatt : (delete_task st false task).store.attempts =
              st.attempts.filter fun a => ¬ a.task_id = task.id := by
            simp [delete_task, hfind, hrows]
          refine ⟨?_, ?_, ?_, ?_, ?_⟩
          · intro t ht a ha hatid
            rw [htasks] at ht
            have ht1 := (List.mem_filter.mp ht).1
            have haid : a.id ∈ (st.attempts.filter fun a => a.task_id = task.id).map
                fun a => a.id :=
              List.mem_map_of_mem _ (List.mem_filter.mpr ⟨ha, by simp [hatid]⟩)
            exact foldl_nullify_clears _ _ t ht1 a.id haid
          · intro u hu hne
            have hmem := map_nullify_mem
              ((st.attempts.filter fun a => a.task_id = task.id).map fun a => a.id)
              st.tasks u hu
            rw [htasks]
            cases hp : u.parent_task_attempt with
            | none =>
                simp only [hp] at hmem ⊢
                exact List.mem_filter.mpr ⟨hmem, by simpa using hne⟩
            | some aid =>
                simp only [hp] at hmem ⊢
                by_cases hc : ((st.attempts.filter fun a => a.task_id = task.id).map
                    fun a => a.id).contains aid
                · rw [if_pos hc] at hmem ⊢
                  exact List.mem_filter.mpr ⟨hmem, by simpa using hne⟩
                · rw [if_neg hc] at hmem ⊢
                  exact List.mem_filter.mpr ⟨hmem, by simpa using hne⟩
          · intro t ht
            rw [htasks] at ht
            simpa using (List.mem_filter.mp ht).2
          · intro a ha
            rw [hatt] at ha
            simpa using (List.mem_filter.mp ha).2
          · simp [delete_task, hfind, hrows, List.map_map, Function.comp]

/-- Witness for C3: deleting task 10 of the fixture store nulls the child
reference of task 11, removes the task and both attempts, and the
transaction trace has the expected shape. -/
theorem delete_task_success_atomic_witness :
    (∀ t ∈ (delete_task sampleStore false sampleTask).store.tasks,
        ∀ a ∈ sampleStore.attempts, a.task_id = sampleTask.id →
          t.parent_task_attempt ≠ some a.id) ∧
    (∀ u ∈ sampleStore.tasks, u.id ≠ sampleTask.id →
        (match u.parent_task_attempt with
         | some aid =>
             if ((sampleStore.attempts.filter fun a => a.task_id = sampleTask.id).map
                  fun a => a.id).contains aid then
               { u with parent_task_attempt := none } ∈
                 (delete_task sampleStore false sampleTask).store.tasks
             else u ∈ (delete_task sampleStore false sampleTask).store.tasks
         | none => u ∈ (delete_task sampleStore false sampleTask).store.tasks)) ∧
    (∀ t ∈ (delete_task sampleStore false sampleTask).store.tasks,
        t.id ≠ sampleTask.id) ∧
    (∀ a ∈ (delete_task sampleStore false sampleTask).store.attempts,
        a.task_id ≠ sampleTask.id) ∧
    (delete_task sampleStore false sampleTask).txOps =
      [.txBegin] ++ ((sampleStore.attempts.filter fun a => a.task_id = sampleTask.id).map
          fun a => .nullifyChildren a.id) ++ [.deleteTaskRow sampleTask.id, .txCommit] :=
  delete_task_success_atomic sampleStore false sampleTask rfl

/-- C9: whenever `pull_branch` reaches the post-fetch ahead/behind
computation (clean worktree, matching current branch, upstream present)
and the behind count is 0, the call returns success with
`commits_pulled = 0` and message "Already up-to-date", and the command
trace contains only the fetch — no merge or rebase is executed. -/
theorem pull_branch_behind_zero_noop
    (st : PullRepoState) (branch : String) (strategy : PullStrategy)
    (hclean : st.clean = true) (hcur : st.currentBranch = branch)
    (hup : st.hasUpstream = true) (hbehind : st.behind = 0) :
    pull_branch st branch strategy =
      (.ok { success := true, strategy_used := strategy, commits_pulled := 0,
             message := "Already up-to-date" }, [.fetchBranch branch]) := by
  simp [pull_branch, hclean, hcur, hup, hbehind]

/-- Witness for C9 at a concrete repository state. -/
theorem pull_branch_behind_zero_noop_witness :
    pull_branch ⟨true, "main", true, 2, 0⟩ "main" .merge =
      (.ok { success := true, strategy_used := .merge, commits_pulled := 0,
             message := "Already up-to-date" }, [.fetchBranch "main"]) :=
  pull_branch_behind_zero_noop ⟨true, "main", true, 2, 0⟩ "main" .merge
    rfl rfl rfl rfl

/-- C1 counterexample: a pull on a branch that is 3 ahead and 0 behind
does NOT fail with a divergence error — it returns the no-op success,
because the `behind == 0` short-circuit precedes the divergence check. -/
theorem pull_branch_ahead_only_returns_ok :
    0 < (PullRepoState.mk true "main" true 3 0).ahead ∧
    (pull_branch (PullRepoState.mk true "main" true 3 0) "main" .merge).1 =
      .ok { success := true, strategy_used := .merge, commits_pulled := 0,
            message := "Already up-to-date" } := by
  constructor
  · decide
  · rfl

/-- C1 (amended): whenever `pull_branch` reaches the post-fetch
ahead/behind computation and the branch is diverged (ahead > 0 AND
behind > 0), the call fails with a divergence error regardless of the
strategy, and no merge or rebase command is executed. -/
theorem pull_branch_diverged_fails
    (st : PullRepoState) (branch : String) (strategy : PullStrategy)
    (hclean : st.clean = true) (hcur : st.currentBranch = branch)
    (hup : st.hasUpstream = true) (hahead : 0 < st.ahead)
    (hbehind : 0 < st.behind) :
    (pull_branch st branch strategy).1 =
      .error (.branchesDiverged "Branch has diverged: manual merge required.") ∧
    GitCmd.mergeFfOnlyUpstream ∉ (pull_branch st branch strategy).2 ∧
    GitCmd.rebaseUpstream ∉ (pull_branch st branch strategy).2 := by
  have hb : ¬ st.behind = 0 := Nat.pos_iff_ne_zero.mp hbehind
  simp [pull_branch, hclean, hcur, hup, hb, hahead]

/-- Witness for the amended C1 at a concrete diverged state. -/
theorem pull_branch_diverged_fails_witness :
    (pull_branch ⟨true, "main", true, 2, 3⟩ "main" .rebase).1 =
      .error (.branchesDiverged "Branch has diverged: manual merge required.") ∧
    GitCmd.mergeFfOnlyUpstream ∉ (pull_branch ⟨true, "main", true, 2, 3⟩ "main" .rebase).2 ∧
    GitCmd.rebaseUpstream ∉ (pull_branch ⟨true, "main", true, 2, 3⟩ "main" .rebase).2 :=
  pull_branch_diverged_fails ⟨true, "main", true, 2, 3⟩ "main" .rebase
    rfl rfl rfl (by decide) (by decide)

/-- C2 counterexample: for a branch that is 1 ahead and 1 behind,
`get_sync_status` reports `needs_pull = true` even though `ahead ≠ 0`,
contradicting "needs_pull iff behind > 0 and ahead == 0". -/
theorem get_sync_status_needs_pull_cex :
    ∃ b ∈ (get_sync_status
        { currentBranch := "main",
          branches := [{ name := "main", localOid := "l", upstreamOid := some "r" }],
          graphAheadBehind := fun _ _ => (1, 1) }).branches,
      b.needs_pull = true ∧ b.ahead_count = 1 ∧ b.behind_count = 1 := by
  exact ⟨⟨"main", "l", some "r", 1, 1, true, false, true, false⟩,
    by simp [get_sync_status], rfl, rfl, rfl⟩

/-- C2 (amended): for every branch reported by `get_sync_status`,
`is_diverged` iff ahead > 0 and behind > 0, `is_up_to_date` iff both are
zero, `needs_push` iff ahead > 0 and behind == 0, and `needs_pull` iff
behind > 0 (with no condition on the ahead count). -/
theorem get_sync_status_flags
    (repo : SyncRepoState) (b : BranchSyncStatus)
    (hb : b ∈ (get_sync_status repo).branches) :
    (b.is_diverged = true ↔ 0 < b.ahead_count ∧ 0 < b.behind_count) ∧
    (b.is_up_to_date = true ↔ b.ahead_count = 0 ∧ b.behind_count = 0) ∧
    (b.needs_pull = true ↔ 0 < b.behind_count) ∧
    (b.needs_push = true ↔ 0 < b.ahead_count ∧ b.behind_count = 0) := by
  simp only [get_sync_status, List.mem_filterMap] at hb
  obtain ⟨lb, _, hmap⟩ := hb
  cases hup : lb.upstreamOid with
  | none => rw [hup] at hmap; simp at hmap
  | some remote =>
      rw [hup] at hmap
      simp only [Option.map_some'] at hmap
      injection hmap with h
      subst h
      simp

/-- Witness for the amended C2 at a concrete repository state. -/
theorem get_sync_status_flags_witness :
    ((BranchSyncStatus.mk "main" "l" (some "r") 1 1 true false true false).is_diverged = true ↔
        0 < (BranchSyncStatus.mk "main" "l" (some "r") 1 1 true false true false).ahead_count ∧
        0 < (BranchSyncStatus.mk "main" "l" (some "r") 1 1 true false true false).behind_count) ∧
    ((BranchSyncStatus.mk "main" "l" (some "r") 1 1 true false true false).is_up_to_date = true ↔
        (BranchSyncStatus.mk "main" "l" (some "r") 1 1 true false true false).ahead_count = 0 ∧
        (BranchSyncStatus.mk "main" "l" (some "r") 1 1 true false true false).behind_count = 0) ∧
    ((BranchSyncStatus.mk "main" "l" (some "r") 1 1 true false true false).needs_pull = true ↔
        0 < (BranchSyncStatus.mk "main" "l" (some "r") 1 1 true false true false).behind_count) ∧
    ((BranchSyncStatus.mk "main" "l" (some "r") 1 1 true false true false).needs_push = true ↔
        0 < (BranchSyncStatus.mk "main" "l" (some "r") 1 1 true false true false).ahead_count ∧
        (BranchSyncStatus.mk "main" "l" (some "r") 1 1 true false true false).behind_count = 0) :=
  get_sync_status_flags
    { currentBranch := "main",
      branches := [{ name := "main", localOid := "l", upstreamOid := some "r" }],
      graphAheadBehind := fun _ _ => (1, 1) }
    (BranchSyncStatus.mk "main" "l" (some "r") 1 1 true false true false)
    (by simp [get_sync_status])

/-- C5: `follow_up` builds a continue-session action carrying exactly the
latest session id and the new prompt when one exists, and a fresh initial
action otherwise; in both cases the executor comes from the profile
re-read from the run's most recent process record and the variant is the
caller's override when provided, otherwise that profile's variant. -/
theorem follow_up_action (latest_session_id : Option String)
    (latest_profile : ExecutorProfileId) (prompt : String)
    (variant_override : Option String) :
    (∀ s, latest_session_id = some s →
      follow_up latest_session_id latest_profile prompt variant_override =
        .codingAgentFollowUpRequest prompt s
          { executor := latest_profile.executor,
            variant := variant_override.or latest_profile.variant }) ∧
    (latest_session_id = none →
      follow_up latest_session_id latest_profile prompt variant_override =
        .codingAgentInitialRequest prompt
          { executor := latest_profile.executor,
            variant := variant_override.or latest_profile.variant }) := by
  constructor
  · intro s hs; subst hs; rfl
  · intro hn; subst hn; rfl

/-- Witness for C5: a run with a prior session id continues it; a run with
none starts fresh; a caller override replaces the stored variant. -/
theorem follow_up_action_witness :
    follow_up (some "sess-1") ⟨"CLAUDE_CODE", some "v1"⟩ "go on" none =
      .codingAgentFollowUpRequest "go on" "sess-1" ⟨"CLAUDE_CODE", some "v1"⟩ ∧
    follow_up none ⟨"CLAUDE_CODE", some "v1"⟩ "start" (some "v2") =
      .codingAgentInitialRequest "start" ⟨"CLAUDE_CODE", some "v2"⟩ :=
  ⟨(follow_up_action (some "sess-1") ⟨"CLAUDE_CODE", some "v1"⟩ "go on" none).1
      "sess-1" rfl,
   (follow_up_action none ⟨"CLAUDE_CODE", some "v1"⟩ "start" (some "v2")).2 rfl⟩

/-- C10: when `base_branch` is absent from a `create_execution_run`
request (and the project exists), the created run's `target_branch` is
"main" and its branch is `run/` followed by the first 8 characters of the
run id's string form. -/
theorem create_execution_run_defaults (runIdStr : String)
    (payload : CreateExecutionRunRequest)
    (hbb : payload.base_branch = none) :
    create_execution_run runIdStr true payload =
      .ok { id := runIdStr, project_id := payload.project_id,
            branch := "run/" ++ runIdStr.take 8, target_branch := "main",
            executor := payload.executor, container_ref := none,
            prompt := payload.prompt, worktree_deleted := false } := by
  simp [create_execution_run, hbb]

/-- Witness for C10 at a concrete run id and request. -/
theorem create_execution_run_defaults_witness :
    create_execution_run "0c5d7a1e-9f2b-4c3d-8e4f-123456789abc" true
        ⟨1, "summarize", "CLAUDE_CODE", none, none⟩ =
      .ok { id := "0c5d7a1e-9f2b-4c3d-8e4f-123456789abc", project_id := 1,
            branch := "run/" ++ "0c5d7a1e-9f2b-4c3d-8e4f-123456789abc".take 8,
            target_branch := "main", executor := "CLAUDE_CODE",
            container_ref := none, prompt := "summarize",
            worktree_deleted := false } :=
  create_execution_run_defaults "0c5d7a1e-9f2b-4c3d-8e4f-123456789abc"
    ⟨1, "summarize", "CLAUDE_CODE", none, none⟩ rfl

/-- C7: `create_task_and_start` creates the task row directly with its
final initial status — `todo` when `use_worktree` is true or absent,
`agent` when false — as the very first store operation; no operation in
the call updates a task status afterwards; and the `forge_agents`
registration happens exactly when `use_worktree` is false. -/
theorem create_task_and_start_initial_status (st : Store)
    (p : CreateAndStartTaskRequest) (taskId attemptId : Nat)
    (branchName : String) (startOk : Bool) :
    (create_task_and_start st p taskId attemptId branchName startOk).ops.head? =
      some (.createTaskWithStatus taskId
        (if p.use_worktree.getD true then .todo else .agent)) ∧
    (∀ i s, CreateStartOp.updateTaskStatus i s ∉
        (create_task_and_start st p taskId attemptId branchName startOk).ops) ∧
    (CreateStartOp.insertForgeAgent taskId ∈
        (create_task_and_start st p taskId attemptId branchName startOk).ops ↔
      p.use_worktree.getD true = false) := by
  refine ⟨?_, ?_, ?_⟩
  · rcases huw : p.use_worktree with _ | (_ | _)
    all_goals cases himg : p.has_image_ids
    all_goals cases hv : p.variant
    all_goals cases hfind : st.projects.find? fun pr => pr.id = p.project_id
    all_goals simp [create_task_and_start, huw, himg, hv, hfind]
  · intro i s
    rcases huw : p.use_worktree with _ | (_ | _)
    all_goals cases himg : p.has_image_ids
    all_goals cases hv : p.variant
    all_goals cases hfind : st.projects.find? fun pr => pr.id = p.project_id
    all_goals simp [create_task_and_start, huw, himg, hv, hfind]
  · rcases huw : p.use_worktree with _ | (_ | _)
    all_goals cases himg : p.has_image_ids
    all_goals cases hv : p.variant
    all_goals cases hfind : st.projects.find? fun pr => pr.id = p.project_id
    all_goals simp [create_task_and_start, huw, himg, hv, hfind]

/-- C8: when the parent project exists, `create_task_and_start` returns a
success response whose `has_in_progress_attempt` equals exactly whether
the container's `start_attempt` succeeded (a start failure is not fatal),
and the created task and attempt rows are in the resulting store either
way. -/
theorem create_task_and_start_start_result (st : Store)
    (p : CreateAndStartTaskRequest) (taskId attemptId : Nat)
    (branchName : String) (startOk : Bool)
    (hproj : (st.projects.find? fun pr => pr.id = p.project_id).isSome = true) :
    (∃ resp,
        (create_task_and_start st p taskId attemptId branchName startOk).result =
          .ok resp ∧ resp.has_in_progress_attempt = startOk) ∧
    (∃ t ∈ (create_task_and_start st p taskId attemptId branchName startOk).store.tasks,
        t.id = taskId) ∧
    (∃ a ∈ (create_task_and_start st p taskId attemptId branchName startOk).store.attempts,
        a.id = attemptId) := by
  rcases hfind : st.projects.find? fun pr => pr.id = p.project_id with _ | pr
  · rw [hfind] at hproj; simp at hproj
  · rcases huw : p.use_worktree with _ | (_ | _)
    all_goals cases hv : p.variant
    all_goals refine ⟨?_, ?_, ?_⟩
    all_goals simp [create_task_and_start, huw, hv, hfind]
    all_goals
      first
      | (rcases hfo : List.find? (fun t => decide (t.id = taskId)) st.tasks with _ | tk <;>
           simp [hfo])
      | exact ⟨_, Or.inr rfl, rfl⟩

/-- Witness for C8: with the fixture store's project, a failed container
start still yields a success response with `has_in_progress_attempt =
false` and persisted task/attempt rows. -/
theorem create_task_and_start_start_result_witness :
    (∃ resp,
        (create_task_and_start sampleStore
            ⟨1, "agent chat", false, "CLAUDE_CODE", none, "main", some false⟩
            20 200 "forge/x" false).result = .ok resp ∧
          resp.has_in_progress_attempt = false) ∧
    (∃ t ∈ (create_task_and_start sampleStore
        ⟨1, "agent chat", false, "CLAUDE_CODE", none, "main", some false⟩
        20 200 "forge/x" false).store.tasks, t.id = 20) ∧
    (∃ a ∈ (create_task_and_start sampleStore
        ⟨1, "agent chat", false, "CLAUDE_CODE", none, "main", some false⟩
        20 200 "forge/x" false).store.attempts, a.id = 200) :=
  create_task_and_start_start_result sampleStore
    ⟨1, "agent chat", false, "CLAUDE_CODE", none, "main", some false⟩
    20 200 "forge/x" false rfl

/-- The verdict of `is_agent_task` is cache membership or the fallback
lookup. -/
theorem is_agent_task_verdict (cache : List Nat) (db : Nat → Bool) (i : Nat) :
    (is_agent_task cache db i).1 = (cache.contains i || db i) := by
  unfold is_agent_task
  split_ifs with h1 h2
  · rw [h1]; rfl
  · rw [Bool.eq_false_iff.mpr h1, h2]; rfl
  · rw [Bool.eq_false_iff.mpr h1, Bool.eq_false_iff.mpr h2]; rfl

/-- The cache update of `is_agent_task` never changes the combined
cache-or-db verdict for any task id (it only caches db-confirmed ids). -/
theorem is_agent_task_cache_semantics (cache : List Nat) (db : Nat → Bool)
    (i x : Nat) :
    ((is_agent_task cache db i).2.contains x || db x) =
      (cache.contains x || db x) := by
  unfold is_agent_task
  split_ifs with h1 h2
  · rfl
  · by_cases hx : x = i
    · subst hx
      rw [h2]
      simp
    · have hxi : (x == i) = false := by simp [hx]
      rw [List.contains_cons, hxi, Bool.false_or]
  · rfl

/-- The snapshot loop keeps exactly the entries that are not hidden with
respect to the initial cache-or-db verdict and the status check. -/
theorem filterSnapshotTasks_spec (db : Nat → Bool) :
    ∀ (ts : List (String × TaskMsg)) (cache : List Nat),
      (filterSnapshotTasks cache db ts).1 =
        ts.filter fun q =>
          !(cache.contains q.2.id || db q.2.id ||
            (q.2.status == TaskStatus.agent)) := by
  intro ts
  induction ts with
  | nil => intro cache; rfl
  | cons p rest ih =>
      intro cache
      obtain ⟨k, t⟩ := p
      simp only [filterSnapshotTasks]
      rw [ih]
      have hfilter : (rest.filter fun q =>
            !((is_agent_task cache db t.id).2.contains q.2.id || db q.2.id ||
              (q.2.status == TaskStatus.agent)))
          = rest.filter fun q =>
            !(cache.contains q.2.id || db q.2.id ||
              (q.2.status == TaskStatus.agent)) := by
        apply List.filter_congr
        intro q _
        rw [is_agent_task_cache_semantics cache db t.id q.2.id]
      rw [hfilter]
      have hh : ((is_agent_task cache db t.id).1 || (t.status == TaskStatus.agent))
          = (cache.contains t.id || db t.id || (t.status == TaskStatus.agent)) := by
        rw [is_agent_task_verdict]
      rw [hh, List.filter_cons]
      cases h : (cache.contains t.id || db t.id || (t.status == TaskStatus.agent))
      · simp [h]
      · simp [h]

/-- C6: the kanban stream filter never forwards an add or replace patch
for a task that is in the hidden set, confirmed hidden by the fallback
lookup, or carries status `agent`; it always forwards remove patches; and
it forwards the initial full snapshot with exactly the hidden tasks' keys
filtered out. -/
theorem kanban_filter_patch_spec :
    (∀ (cache : List Nat) (db : Nat → Bool) (t : TaskMsg),
      (cache.contains t.id || db t.id || (t.status == TaskStatus.agent)) = true →
        (filter_patch cache db (.add t)).1 = none ∧
        (filter_patch cache db (.replaceOp t)).1 = none) ∧
    (∀ (cache : List Nat) (db : Nat → Bool) (i : Nat),
      (filter_patch cache db (.remove i)).1 = some (.remove i)) ∧
    (∀ (cache : List Nat) (db : Nat → Bool) (ts : List (String × TaskMsg)),
      (filter_patch cache db (.snapshot ts)).1 =
        some (.snapshot (ts.filter fun q =>
          !(cache.contains q.2.id || db q.2.id ||
            (q.2.status == TaskStatus.agent))))) := by
  refine ⟨?_, ?_, ?_⟩
  · intro cache db t h
    have hh : ((is_agent_task cache db t.id).1 || (t.status == TaskStatus.agent)) = true := by
      rw [is_agent_task_verdict]
      exact h
    constructor <;> simp [filter_patch, hh]
  · intro cache db i
    rfl
  · intro cache db ts
    simp only [filter_patch]
    rw [filterSnapshotTasks_spec]

/-- Witness for C6: with the hidden set {5} and a fallback that confirms
id 7, an add/replace for task 5 is dropped, a remove for task 5 passes,
and a snapshot keeps only the non-hidden task 6. -/
theorem kanban_filter_patch_spec_witness :
    (filter_patch [5] (fun i => decide (i = 7)) (.add ⟨5, .todo⟩)).1 = none ∧
    (filter_patch [5] (fun i => decide (i = 7)) (.replaceOp ⟨5, .todo⟩)).1 = none ∧
    (filter_patch [5] (fun i => decide (i = 7)) (.remove 5)).1 =
      some (.remove 5) ∧
    (filter_patch [5] (fun i => decide (i = 7))
        (.snapshot [("5", ⟨5, .todo⟩), ("6", ⟨6, .todo⟩), ("7", ⟨7, .todo⟩)])).1 =
      some (.snapshot [("6", ⟨6, .todo⟩)]) :=
  ⟨(kanban_filter_patch_spec.1 [5] (fun i => decide (i = 7)) ⟨5, .todo⟩ rfl).1,
   (kanban_filter_patch_spec.1 [5] (fun i => decide (i = 7)) ⟨5, .todo⟩ rfl).2,
   kanban_filter_patch_spec.2.1 [5] (fun i => decide (i = 7)) 5,
   kanban_filter_patch_spec.2.2 [5] (fun i => decide (i = 7))
     [("5", ⟨5, .todo⟩), ("6", ⟨6, .todo⟩), ("7", ⟨7, .todo⟩)]⟩

end ForgeCore
